import Mathlib

/-!
Verification development for `scripts/tingwu_transcribe.py`, a command-line
client that signs requests to a transcription service (ACS3-HMAC-SHA256
scheme), submits a job and polls for its status.

The Python source is shallowly embedded: byte strings become `List Nat`
(each element a byte value), text strings become Lean `String` encoded to
bytes by an explicit UTF-8 encoder, `hashlib.sha256` and `hmac.new(...,
hashlib.sha256)` become executable pure functions below, dicts become
association lists with Python dict update semantics, and exceptions become
`Except` values.
-/

set_option maxRecDepth 100000

namespace Tingwu

/-! ## Bytes, hex, UTF-8 -/

/-- Truncation to a 32-bit word. -/
def w32 (x : Nat) : Nat := x % 4294967296

/-- 32-bit rotate right by `n`. -/
def rotr32 (n x : Nat) : Nat :=
  w32 (Nat.lor (Nat.shiftRight x n) (Nat.shiftLeft x (32 - n)))

/-- SHA-256 `Ch(x,y,z)`. -/
def ch32 (x y z : Nat) : Nat :=
  Nat.xor (Nat.land x y) (Nat.land (Nat.xor x 4294967295) z)

/-- SHA-256 `Maj(x,y,z)`. -/
def maj32 (x y z : Nat) : Nat :=
  Nat.xor (Nat.xor (Nat.land x y) (Nat.land x z)) (Nat.land y z)

/-- SHA-256 `Σ₀`. -/
def bsig0 (x : Nat) : Nat := Nat.xor (Nat.xor (rotr32 2 x) (rotr32 13 x)) (rotr32 22 x)

/-- SHA-256 `Σ₁`. -/
def bsig1 (x : Nat) : Nat := Nat.xor (Nat.xor (rotr32 6 x) (rotr32 11 x)) (rotr32 25 x)

/-- SHA-256 `σ₀`. -/
def ssig0 (x : Nat) : Nat := Nat.xor (Nat.xor (rotr32 7 x) (rotr32 18 x)) (Nat.shiftRight x 3)

/-- SHA-256 `σ₁`. -/
def ssig1 (x : Nat) : Nat := Nat.xor (Nat.xor (rotr32 17 x) (rotr32 19 x)) (Nat.shiftRight x 10)

/-- The 64 SHA-256 round constants. -/
def sha256K : List Nat :=
  [1116352408, 1899447441, 3049323471, 3921009573, 961987163, 1508970993,
   2453635748, 2870763221, 3624381080, 310598401, 607225278, 1426881987,
   1925078388, 2162078206, 2614888103, 3248222580, 3835390401, 4022224774,
   264347078, 604807628, 770255983, 1249150122, 1555081692, 1996064986,
   2554220882, 2821834349, 2952996808, 3210313671, 3336571891, 3584528711,
   113926993, 338241895, 666307205, 773529912, 1294757372, 1396182291,
   1695183700, 1986661051, 2177026350, 2456956037, 2730485921, 2820302411,
   3259730800, 3345764771, 3516065817, 3600352804, 4094571909, 275423344,
   430227734, 506948616, 659060556, 883997877, 958139571, 1322822218,
   1537002063, 1747873779, 1955562222, 2024104815, 2227730452, 2361852424,
   2428436474, 2756734187, 3204031479, 3329325298]

/-- The eight-word SHA-256 working state. -/
structure SHAState where
  sa : Nat
  sb : Nat
  sc : Nat
  sd : Nat
  se : Nat
  sf : Nat
  sg : Nat
  sh : Nat
deriving DecidableEq

/-- SHA-256 initial hash value. -/
def sha256Init : SHAState :=
  ⟨1779033703, 3144134277, 1013904242, 2773480762,
   1359893119, 2600822924, 528734635, 1541459225⟩

/-- One SHA-256 compression round; `kw` pairs the round constant with the
message-schedule word. -/
def sha256Round (s : SHAState) (kw : Nat × Nat) : SHAState :=
  let t1 := w32 (s.sh + bsig1 s.se + ch32 s.se s.sf s.sg + kw.1 + kw.2)
  let t2 := w32 (bsig0 s.sa + maj32 s.sa s.sb s.sc)
  ⟨w32 (t1 + t2), s.sa, s.sb, s.sc, w32 (s.sd + t1), s.se, s.sf, s.sg⟩

/-- Big-endian packing of bytes into 32-bit words. -/
def bytesToWords : List Nat → List Nat
  | b0 :: b1 :: b2 :: b3 :: rest =>
    (b0 * 16777216 + b1 * 65536 + b2 * 256 + b3) :: bytesToWords rest
  | _ => []

/-- Extend a message schedule by `fuel` further words
(`w[t] = σ₁(w[t-2]) + w[t-7] + σ₀(w[t-15]) + w[t-16]`). -/
def extendW : Nat → List Nat → List Nat
  | 0, ws => ws
  | n + 1, ws =>
    let i := ws.length
    let next := w32 (ssig1 (ws.getD (i - 2) 0) + ws.getD (i - 7) 0 +
      ssig0 (ws.getD (i - 15) 0) + ws.getD (i - 16) 0)
    extendW n (ws ++ [next])

/-- Process one 64-byte block. -/
def sha256Block (s : SHAState) (block : List Nat) : SHAState :=
  let ws := extendW 48 (bytesToWords block)
  let r := (sha256K.zip ws).foldl sha256Round s
  ⟨w32 (s.sa + r.sa), w32 (s.sb + r.sb), w32 (s.sc + r.sc), w32 (s.sd + r.sd),
   w32 (s.se + r.se), w32 (s.sf + r.sf), w32 (s.sg + r.sg), w32 (s.sh + r.sh)⟩

/-- Split a byte list into 64-byte chunks; the first argument is fuel
(instantiated with the list length). -/
def chunk64 : Nat → List Nat → List (List Nat)
  | 0, _ => []
  | _, [] => []
  | n + 1, l => l.take 64 :: chunk64 n (l.drop 64)

/-- 8-byte big-endian encoding of a (bit-)length. -/
def lenBE64 (n : Nat) : List Nat :=
  [Nat.shiftRight n 56 % 256, Nat.shiftRight n 48 % 256, Nat.shiftRight n 40 % 256,
   Nat.shiftRight n 32 % 256, Nat.shiftRight n 24 % 256, Nat.shiftRight n 16 % 256,
   Nat.shiftRight n 8 % 256, n % 256]

/-- SHA-256 padding: `0x80`, zeros to 56 mod 64, then the 64-bit bit length. -/
def sha256Pad (msg : List Nat) : List Nat :=
  msg ++ 128 :: List.replicate ((119 - msg.length % 64) % 64) 0 ++ lenBE64 (8 * msg.length)

/-- Big-endian 4-byte serialization of a 32-bit word. -/
def word32Bytes (x : Nat) : List Nat :=
  [x / 16777216 % 256, x / 65536 % 256, x / 256 % 256, x % 256]

/-- SHA-256 of a byte list, as 32 digest bytes. -/
def sha256 (msg : List Nat) : List Nat :=
  let padded := sha256Pad msg
  let s := (chunk64 padded.length padded).foldl sha256Block sha256Init
  word32Bytes s.sa ++ word32Bytes s.sb ++ word32Bytes s.sc ++ word32Bytes s.sd ++
    word32Bytes s.se ++ word32Bytes s.sf ++ word32Bytes s.sg ++ word32Bytes s.sh

/-- The sixteen lowercase hex digits. -/
def hexChars : List Char := "0123456789abcdef".data

/-- Hex digit of a nibble. -/
def hexDigit (n : Nat) : Char := hexChars.getD n '0'

/-- Two lowercase hex characters for one byte (Python `%02x`). -/
def byteHexChars (b : Nat) : List Char := [hexDigit (b / 16 % 16), hexDigit (b % 16)]

/-- Lowercase hex string of a byte list (Python `.hexdigest()`). -/
def hexOfBytes (l : List Nat) : String := String.mk (l.flatMap byteHexChars)

/-- UTF-8 encoding of one character. -/
def utf8Char (c : Char) : List Nat :=
  let n := c.toNat
  if n < 128 then [n]
  else if n < 2048 then [192 + n / 64, 128 + n % 64]
  else if n < 65536 then [224 + n / 4096, 128 + n / 64 % 64, 128 + n % 64]
  else [240 + n / 262144, 128 + n / 4096 % 64, 128 + n / 64 % 64, 128 + n % 64]

/-- UTF-8 encoding of a string (Python `str.encode()`). -/
def utf8 (s : String) : List Nat := s.data.flatMap utf8Char

/-- Python `hashlib.sha256(s.encode()).hexdigest()`. -/
def sha256hex (s : String) : String := hexOfBytes (sha256 (utf8 s))

/-- HMAC-SHA256 (FIPS 198-1) over byte lists. -/
def hmacSha256 (key msg : List Nat) : List Nat :=
  let k0 := if 64 < key.length then sha256 key else key
  let kp := k0 ++ List.replicate (64 - k0.length) 0
  sha256 (kp.map (Nat.xor 92) ++ sha256 (kp.map (Nat.xor 54) ++ msg))

/-- Python `hmac.new(key.encode(), msg.encode(), hashlib.sha256).hexdigest()`. -/
def hmacSha256hex (key msg : String) : String := hexOfBytes (hmacSha256 (utf8 key) (utf8 msg))

example : sha256 [] =
    [0xe3, 0xb0, 0xc4, 0x42, 0x98, 0xfc, 0x1c, 0x14, 0x9a, 0xfb, 0xf4, 0xc8,
     0x99, 0x6f, 0xb9, 0x24, 0x27, 0xae, 0x41, 0xe4, 0x64, 0x9b, 0x93, 0x4c,
     0xa4, 0x95, 0x99, 0x1b, 0x78, 0x52, 0xb8, 0x55] := by decide

example : sha256hex "abc" =
    "ba7816bf8f01cfea414140de5dae2223b00361a396177a9cb410ff61f20015ad" := by decide

example : hmacSha256hex "key" "The quick brown fox jumps over the lazy dog" =
    "f7bc83f430538424b13298e6aa6fb143ef4d59a14946175997479dbc2d1a3cd8" := by decide

/-! ## URL parsing (`urllib.parse.urlparse`)

Model of the generic parsing algorithm of `urllib.parse.urlparse`: split a
scheme at the first `:` when the prefix is a valid scheme name, a network
location after `//` up to the next `/`, `?` or `#`, then the fragment at the
first `#`, the query at the first `?`, and parameters at a `;` in the last
path segment. Control-character stripping is not modelled. -/

/-- Characters allowed in a scheme name after the leading letter. -/
def schemeChars (c : Char) : Bool := c.isAlphanum || c = '+' || c = '-' || c = '.'

/-- Split a character list at the first occurrence of `c`; the occurrence
itself is dropped. -/
def splitFirst (c : Char) : List Char → Option (List Char × List Char)
  | [] => none
  | x :: xs =>
    if x = c then some ([], xs)
    else
      match splitFirst c xs with
      | none => none
      | some (a, b) => some (x :: a, b)

/-- Take characters until one of `delims` is hit; the delimiter stays in the
second component. -/
def takeUntilDelims (delims : List Char) : List Char → List Char × List Char
  | [] => ([], [])
  | x :: xs =>
    if delims.contains x then ([], x :: xs)
    else
      let p := takeUntilDelims delims xs
      (x :: p.1, p.2)

/-- `urllib.parse._splitparams`: a `;` in the last path segment separates
the parameters. -/
def splitParams (l : List Char) : List Char × List Char :=
  if l.contains '/' then
    let seg := (l.reverse.takeWhile (fun c => c ≠ '/')).reverse
    let pre := l.take (l.length - seg.length)
    match splitFirst ';' seg with
    | none => (l, [])
    | some (a, b) => (pre ++ a, b)
  else
    match splitFirst ';' l with
    | none => (l, [])
    | some (a, b) => (a, b)

/-- The schemes for which `urlparse` separates path parameters. -/
def usesParams : List String :=
  ["ftp", "hdl", "prospero", "http", "imap", "https", "shttp", "rtsp", "rtsps",
   "rtspu", "sip", "sips", "mms", "sftp", "tel"]

/-- The six named components of `urllib.parse.urlparse`. -/
structure UrlParts where
  scheme : String
  netloc : String
  path : String
  params : String
  query : String
  fragment : String
deriving DecidableEq

/-- Scheme extraction: a leading `name:` is split off when `name` is
nonempty, starts with a letter and holds only scheme characters; the
scheme is lowercased. -/
def splitScheme (l : List Char) : List Char × List Char :=
  match splitFirst ':' l with
  | some (before, after) =>
    if before ≠ [] ∧ (before.headD ' ').isAlpha ∧ before.all schemeChars then
      (before.map Char.toLower, after)
    else ([], l)
  | none => ([], l)

/-- Network-location extraction: after a leading `//`, the netloc runs to
the next `/`, `?` or `#`. -/
def splitNetloc (l : List Char) : List Char × List Char :=
  match l with
  | '/' :: '/' :: r => takeUntilDelims ['/', '?', '#'] r
  | r => ([], r)

/-- Fragment split at the first `#`. -/
def splitFragment (l : List Char) : List Char × List Char :=
  match splitFirst '#' l with
  | some (a, b) => (a, b)
  | none => (l, [])

/-- Query split at the first `?`. -/
def splitQuery (l : List Char) : List Char × List Char :=
  match splitFirst '?' l with
  | some (a, b) => (a, b)
  | none => (l, [])

/-- `urllib.parse.urlparse` on the `ParseResult` fields the script uses. -/
def urlparse (url : String) : UrlParts :=
  let sp := splitScheme url.data
  let np := splitNetloc sp.2
  let fp := splitFragment np.2
  let qp := splitQuery fp.1
  let pp :=
    if String.mk sp.1 ∈ usesParams ∧ qp.1.contains ';' then splitParams qp.1
    else (qp.1, [])
  ⟨String.mk sp.1, String.mk np.1, String.mk pp.1,
   String.mk pp.2, String.mk qp.2, String.mk fp.2⟩

example : urlparse "https://tingwu.cn-beijing.aliyuncs.com/" =
    ⟨"https", "tingwu.cn-beijing.aliyuncs.com", "/", "", "", ""⟩ := by decide

example : urlparse "https://tingwu.cn-beijing.aliyuncs.com/?TaskId=abc123" =
    ⟨"https", "tingwu.cn-beijing.aliyuncs.com", "/", "", "TaskId=abc123", ""⟩ := by decide

example : urlparse "https://host" =
    ⟨"https", "host", "", "", "", ""⟩ := by decide

example : urlparse "http://h/p;par?q=1#f" = ⟨"http", "h", "/p", "par", "q=1", "f"⟩ := by decide

example : urlparse "nohost:/x;y" = ⟨"nohost", "", "/x;y", "", "", ""⟩ := by decide

example : urlparse "//h/x" = ⟨"", "h", "/x", "", "", ""⟩ := by decide

example : urlparse "1bad://h/x" = ⟨"", "", "1bad://h/x", "", "", ""⟩ := by decide

/-! ## Header mappings

Python `dict[str, str]` with insertion order: an association list with
unique keys; assignment updates an existing key in place, otherwise
appends. -/

/-- A header mapping. -/
abbrev Headers := List (String × String)

/-- Dict lookup (`headers[k]` when present). -/
def hget : Headers → String → Option String
  | [], _ => none
  | (k', v') :: t, k => if k' = k then some v' else hget t k

/-- Dict assignment `headers[k] = v`. -/
def hset : Headers → String → String → Headers
  | [], k, v => [(k, v)]
  | (k', v') :: t, k, v => if k' = k then (k, v) :: t else (k', v') :: hset t k v

/-! ## The signer (`sign`, lines 19-57) -/

/-- The fixed `signed_headers` list (line 28). -/
def SIGNED_HEADERS : String :=
  "host;x-acs-action;x-acs-content-sha256;x-acs-date;x-acs-signature-nonce;x-acs-version"

/-- `canonical_headers` (lines 33-40): six `name:value` lines in fixed
order, `host` from the parsed network location. -/
def canonicalHeadersOf (netloc action bodyHash date nonce version : String) : String :=
  "host:" ++ netloc ++ "\n" ++
  "x-acs-action:" ++ action ++ "\n" ++
  "x-acs-content-sha256:" ++ bodyHash ++ "\n" ++
  "x-acs-date:" ++ date ++ "\n" ++
  "x-acs-signature-nonce:" ++ nonce ++ "\n" ++
  "x-acs-version:" ++ version

/-- `canonical_request` (line 42). -/
def canonicalRequestOf (method uri query canonicalHeaders bodyHash : String) : String :=
  method ++ "\n" ++ uri ++ "\n" ++ query ++ "\n" ++ canonicalHeaders ++ "\n\n" ++
    SIGNED_HEADERS ++ "\n" ++ bodyHash

/-- `string_to_sign` (lines 45-46). -/
def stringToSignOf (canonicalRequest : String) : String :=
  "ACS3-HMAC-SHA256\n" ++ sha256hex canonicalRequest

/-- The `Authorization` value (line 55). -/
def authorizationOf (akid signature : String) : String :=
  "ACS3-HMAC-SHA256 Credential=" ++ akid ++ ",SignedHeaders=" ++ SIGNED_HEADERS ++
    ",Signature=" ++ signature

/-- `sign(method, url, headers, body=None)` (lines 19-57). The access key
id and secret are the process-wide credential globals, passed explicitly.
A missing required header raises `KeyError`; the `.error` value carries
the state of the (mutated) header dict at the raise, which already holds
`x-acs-content-sha256`. -/
def sign (akid secret method url : String) (headers : Headers) (body : Option String) :
    Except Headers Headers :=
  let parsed := urlparse url
  let canonical_uri := if parsed.path = "" then "/" else parsed.path
  let canonical_query := parsed.query
  let body_hash := sha256hex (body.getD "")
  let h1 := hset headers "x-acs-content-sha256" body_hash
  match hget h1 "x-acs-action" with
  | none => .error h1
  | some action =>
    match hget h1 "x-acs-date" with
    | none => .error h1
    | some date =>
      match hget h1 "x-acs-signature-nonce" with
      | none => .error h1
      | some nonce =>
        match hget h1 "x-acs-version" with
        | none => .error h1
        | some version =>
          let canonical_headers :=
            canonicalHeadersOf parsed.netloc action body_hash date nonce version
          let canonical_request :=
            canonicalRequestOf method canonical_uri canonical_query canonical_headers body_hash
          let string_to_sign := stringToSignOf canonical_request
          let signature := hmacSha256hex secret string_to_sign
          .ok (hset h1 "Authorization" (authorizationOf akid signature))

instance {ε α : Type} [DecidableEq ε] [DecidableEq α] : DecidableEq (Except ε α) := fun a b =>
  match a, b with
  | .error e, .error f => decidable_of_iff (e = f) (by simp)
  | .ok x, .ok y => decidable_of_iff (x = y) (by simp)
  | .error _, .ok _ => .isFalse (by simp)
  | .ok _, .error _ => .isFalse (by simp)

example :
    sign "akid" "sek" "POST" "https://tingwu.cn-beijing.aliyuncs.com/"
      [("Content-Type", "application/json"), ("x-acs-action", "CreateTask"),
       ("x-acs-version", "2023-09-30"), ("x-acs-date", "2026-01-02T03:04:05Z"),
       ("x-acs-signature-nonce", "n0nce")] (some "bodytext") =
    .ok [("Content-Type", "application/json"), ("x-acs-action", "CreateTask"),
         ("x-acs-version", "2023-09-30"), ("x-acs-date", "2026-01-02T03:04:05Z"),
         ("x-acs-signature-nonce", "n0nce"),
         ("x-acs-content-sha256",
          "21af74590c2f2d8d04f21f38d205842ec48b14f0b44c92ce20fd7f0501607319"),
         ("Authorization",
          "ACS3-HMAC-SHA256 Credential=akid,SignedHeaders=host;x-acs-action;x-acs-content-sha256;x-acs-date;x-acs-signature-nonce;x-acs-version,Signature=9b242f1e06e8bcf0a776b88a46f4d0cccbcde4f19237db676df54101a51c1e46")] := by
  decide

/-! ## JSON values and the Python operations the script applies to them -/

/-- A parsed JSON value (`json.loads` output). -/
inductive Json where
  | null : Json
  | bool (b : Bool) : Json
  | num (n : Int) : Json
  | str (s : String) : Json
  | arr (elements : List Json) : Json
  | obj (fields : List (String × Json)) : Json

/-- Python `==` between a JSON value and a string literal: true exactly
for an equal string. -/
def jeqStr (j : Json) (s : String) : Bool :=
  match j with
  | .str t => t = s
  | _ => false

/-- Lookup of a string key in a JSON object field list. -/
def jget : List (String × Json) → String → Option Json
  | [], _ => none
  | (k', v) :: t, k => if k' = k then some v else jget t k

/-- Python truthiness of a JSON value. -/
def truthy : Json → Bool
  | .null => false
  | .bool b => b
  | .num n => n ≠ 0
  | .str s => s ≠ ""
  | .arr l => !l.isEmpty
  | .obj l => !l.isEmpty

/-- The Python exceptions the script can encounter. `urlError` stands for
any `urlopen` failure that is not an `urllib.error.HTTPError` (plain
`URLError`, `TimeoutError`, ...), which the bare `except
urllib.error.HTTPError` clauses do not catch. -/
inductive PyExc where
  | keyError (key : String) : PyExc
  | typeError (msg : String) : PyExc
  | attributeError (msg : String) : PyExc
  | urlError (msg : String) : PyExc
deriving DecidableEq

/-- `startsWithL needle hay`: list-level string prefix test. -/
def startsWithL : List Char → List Char → Bool
  | [], _ => true
  | _ :: _, [] => false
  | a :: as, b :: bs => a = b && startsWithL as bs

/-- Substring test (Python `needle in haystack` on strings). -/
def containsSub (needle : List Char) : List Char → Bool
  | [] => startsWithL needle []
  | c :: rest => startsWithL needle (c :: rest) || containsSub needle rest

/-- Python `key in value` for a string `key`: membership for dicts and
lists, substring for strings, `TypeError` otherwise. -/
def pyContains (key : String) : Json → Except PyExc Bool
  | .obj fields => .ok ((jget fields key).isSome)
  | .arr l => .ok (l.any (fun x => jeqStr x key))
  | .str s => .ok (containsSub key.data s.data)
  | _ => .error (.typeError "argument not iterable")

/-- Python `value[key]` for a string `key`: dict lookup (`KeyError` when
absent), `TypeError` on any non-dict. -/
def pySubscript (j : Json) (key : String) : Except PyExc Json :=
  match j with
  | .obj fields =>
    match jget fields key with
    | some v => .ok v
    | none => .error (.keyError key)
  | _ => .error (.typeError "not subscriptable")

/-- Python `value.get(key, default)`: only dicts have `.get`; anything
else raises `AttributeError`. -/
def pyDictGet (j : Json) (key : String) (dflt : Json) : Except PyExc Json :=
  match j with
  | .obj fields => .ok ((jget fields key).getD dflt)
  | _ => .error (.attributeError "no attribute get")

/-! ## Transport and the two task-client calls

`create_task` (lines 59-96) and `get_task` (lines 98-119) build headers
with a fresh UTC timestamp and a time-derived nonce, sign them via `sign`,
and issue one blocking HTTP request. Their header construction always
supplies the four required `x-acs-*` headers, so `sign` cannot raise
there; the wall-clock date, nonce and task-key values are inputs of the
surrounding environment. What the claims depend on is how each call turns
the transport outcome into a return value, modelled here with the outcome
of `urllib.request.urlopen` as an explicit input. -/

/-- Outcome of one `urllib.request.urlopen` call: a 2xx response with a
JSON body, an `urllib.error.HTTPError` (non-2xx status) with a raw body,
or any other transport-level failure. -/
inductive HttpOutcome where
  | success (body : Json) : HttpOutcome
  | httpError (code : Nat) (body : String) : HttpOutcome
  | transportError (msg : String) : HttpOutcome

/-- The shared `try/except urllib.error.HTTPError` shape of both calls
(lines 90-96 and 113-119): on 2xx, return the parsed JSON; on
`HTTPError`, print the status code line and the raw body and return
`None`; anything else propagates. The first component collects the lines
printed by the `except` branch. -/
def requestAttempt : HttpOutcome → Except PyExc (List String × Option Json)
  | .success j => .ok ([], some j)
  | .httpError code body => .ok (["HTTP Error: " ++ toString code, body], none)
  | .transportError msg => .error (.urlError msg)

/-- `create_task(file_url)` (lines 59-96), as a function of its transport
outcome. -/
def create_task (outcome : HttpOutcome) : Except PyExc (List String × Option Json) :=
  requestAttempt outcome

/-- `get_task(task_id)` (lines 98-119), as a function of its transport
outcome. -/
def get_task (outcome : HttpOutcome) : Except PyExc (List String × Option Json) :=
  requestAttempt outcome

/-- The URL `get_task` requests (line 100): the job identifier rides as
the `TaskId` query parameter. -/
def get_task_url (task_id : String) : String :=
  "https://tingwu.cn-beijing.aliyuncs.com/?TaskId=" ++ task_id

/-! ## The polling loop (`__main__`, lines 138-151) -/

/-- The fixed poll interval (line 139, `time.sleep(10)`). -/
def POLL_INTERVAL : Nat := 10

/-- What one iteration of the `while True` loop decides. -/
inductive StepRes where
  | cont : StepRes
  | completed (payload : Json) : StepRes
  | failed (payload : Json) : StepRes
  | exc (e : PyExc) : StepRes

/-- One iteration of the polling loop body (lines 140-151): call
`get_task`, and when the result is truthy read
`status.get("Data", {}).get("TaskStatus")` and compare it against
`"COMPLETED"` and `"FAILED"`. -/
def loopStep (outcome : HttpOutcome) : StepRes :=
  match get_task outcome with
  | .error e => .exc e
  | .ok (_, none) => .cont
  | .ok (_, some status) =>
    if truthy status then
      match pyDictGet status "Data" (.obj []) with
      | .error e => .exc e
      | .ok data =>
        match pyDictGet data "TaskStatus" .null with
        | .error e => .exc e
        | .ok ts =>
          if jeqStr ts "COMPLETED" then .completed status
          else if jeqStr ts "FAILED" then .failed status
          else .cont
    else .cont

/-- Result of running the polling loop against a finite trace of poll
outcomes: `stillPolling` means the trace was exhausted with the loop
still running. -/
inductive LoopRes where
  | completed (payload : Json) : LoopRes
  | failed (payload : Json) : LoopRes
  | uncaught (e : PyExc) : LoopRes
  | stillPolling : LoopRes

/-- The `while True` polling loop over a finite trace of poll outcomes. -/
def pollLoop : List HttpOutcome → LoopRes
  | [] => .stillPolling
  | o :: rest =>
    match loopStep o with
    | .cont => pollLoop rest
    | .completed j => .completed j
    | .failed j => .failed j
    | .exc e => .uncaught e

/-- Observable scheduling events of the loop: every iteration sleeps 10
seconds (line 139) and then polls once (line 140). -/
inductive Event where
  | sleep (seconds : Nat) : Event
  | pollCall : Event
deriving DecidableEq

/-- The event trace of the polling loop: each iteration is a 10-second
sleep followed by one poll; a decisive step ends the trace. -/
def pollEvents : List HttpOutcome → List Event
  | [] => []
  | o :: rest =>
    .sleep POLL_INTERVAL :: .pollCall ::
      (match loopStep o with
       | .cont => pollEvents rest
       | _ => [])

/-! ## `__main__` (lines 121-151) -/

/-- The environment of one run: the argument vector (including the
program name) and the transport outcomes of the one submit call and of
each poll call. -/
structure MainInput where
  argv : List String
  createOutcome : HttpOutcome
  pollOutcomes : List HttpOutcome

/-- The final state of one run of the script. -/
inductive MainRes where
  | usageExit (code : Nat) : MainRes
  | noResult : MainRes
  | noTaskId : MainRes
  | polled (taskId : Json) (r : LoopRes) : MainRes
  | uncaught (e : PyExc) : MainRes

/-- The `__main__` block: usage check (lines 122-124), `create_task`
(line 129), the `if result` and `"Data" in result and "TaskId" in
result["Data"]` guards (lines 130-133), extraction of the job identifier
(line 134), and the polling loop (lines 138-151). -/
def main_run (inp : MainInput) : MainRes :=
  if inp.argv.length < 2 then .usageExit 1
  else
    match create_task inp.createOutcome with
    | .error e => .uncaught e
    | .ok (_, none) => .noResult
    | .ok (_, some result) =>
      if truthy result then
        match pyContains "Data" result with
        | .error e => .uncaught e
        | .ok false => .noTaskId
        | .ok true =>
          match pySubscript result "Data" with
          | .error e => .uncaught e
          | .ok data =>
            match pyContains "TaskId" data with
            | .error e => .uncaught e
            | .ok false => .noTaskId
            | .ok true =>
              match pySubscript data "TaskId" with
              | .error e => .uncaught e
              | .ok taskId => .polled taskId (pollLoop inp.pollOutcomes)
      else .noResult

/-! ## Dictionary lemmas -/

theorem hget_hset_self (h : Headers) (k v : String) : hget (hset h k v) k = some v := by
  induction h with
  | nil => simp [hset, hget]
  | cons kv t ih =>
    by_cases hk : kv.1 = k
    · simp [hset, hget, hk]
    · simp [hset, hget, hk, ih]

theorem hget_hset_ne (h : Headers) (k k' v : String) (hne : k ≠ k') :
    hget (hset h k v) k' = hget h k' := by
  induction h with
  | nil => simp [hset, hget, hne]
  | cons kv t ih =>
    by_cases hk : kv.1 = k
    · simp [hset, hget, hk, hne]
    · simp [hset, hget, hk, ih]

/-! ## Digest shape lemmas -/

theorem sha256_length (msg : List Nat) : (sha256 msg).length = 32 := by
  simp [sha256, word32Bytes]

theorem hmacSha256_length (key msg : List Nat) : (hmacSha256 key msg).length = 32 := by
  simp [hmacSha256, sha256_length]

theorem hexOfBytes_length (l : List Nat) : (hexOfBytes l).length = 2 * l.length := by
  have : (l.flatMap byteHexChars).length = 2 * l.length := by
    induction l with
    | nil => rfl
    | cons b t ih => simp [byteHexChars] at ih ⊢; omega
  simpa [hexOfBytes, String.length] using this

theorem hexDigit_mem (n : Nat) : hexDigit n ∈ hexChars := by
  unfold hexDigit
  rcases Nat.lt_or_ge n 16 with hlt | hge
  · have hn : n < hexChars.length := by rw [show hexChars.length = 16 from rfl]; exact hlt
    rw [List.getD_eq_getElem _ _ hn]
    exact List.getElem_mem hn
  · have hn : hexChars.length ≤ n := by rw [show hexChars.length = 16 from rfl]; exact hge
    rw [List.getD_eq_default _ _ hn]
    decide

theorem hexOfBytes_chars (l : List Nat) : ∀ c ∈ (hexOfBytes l).data, c ∈ hexChars := by
  intro c hc
  simp only [hexOfBytes, List.mem_flatMap] at hc
  obtain ⟨b, -, hb⟩ := hc
  simp only [byteHexChars, List.mem_cons, List.not_mem_nil, or_false] at hb
  rcases hb with h | h <;> exact h ▸ hexDigit_mem _

theorem hmacSha256hex_length (key msg : String) : (hmacSha256hex key msg).length = 64 := by
  simp [hmacSha256hex, hexOfBytes_length, hmacSha256_length]

/-! ## The master equation for `sign` -/

/-- When the four required headers are present, `sign` returns its input
dict with `x-acs-content-sha256` and then `Authorization` assigned, and
the `Authorization` value is assembled from the canonical request built
from the method, parsed URL, the four header values and the body hash. -/
theorem sign_ok_eq (akid secret method url : String) (h : Headers) (body : Option String)
    (a d n v : String)
    (ha : hget h "x-acs-action" = some a)
    (hd : hget h "x-acs-date" = some d)
    (hn : hget h "x-acs-signature-nonce" = some n)
    (hv : hget h "x-acs-version" = some v) :
    sign akid secret method url h body =
      .ok (hset (hset h "x-acs-content-sha256" (sha256hex (body.getD "")))
        "Authorization"
        (authorizationOf akid (hmacSha256hex secret (stringToSignOf (canonicalRequestOf
          method
          (if (urlparse url).path = "" then "/" else (urlparse url).path)
          (urlparse url).query
          (canonicalHeadersOf (urlparse url).netloc a (sha256hex (body.getD "")) d n v)
          (sha256hex (body.getD ""))))))) := by
  have hne : ∀ k : String, k ≠ "x-acs-content-sha256" →
      hget (hset h "x-acs-content-sha256" (sha256hex (body.getD ""))) k = hget h k := by
    intro k hk
    exact hget_hset_ne h _ k _ (fun he => hk he.symm)
  simp only [sign]
  rw [hne "x-acs-action" (by decide), ha, hne "x-acs-date" (by decide), hd,
    hne "x-acs-signature-nonce" (by decide), hn, hne "x-acs-version" (by decide), hv]

/-- When one of the four required headers is absent, `sign` raises
`KeyError`; the dict has already received `x-acs-content-sha256`. -/
theorem sign_error_eq (akid secret method url : String) (h : Headers) (body : Option String)
    (hmiss : hget h "x-acs-action" = none ∨ hget h "x-acs-date" = none ∨
      hget h "x-acs-signature-nonce" = none ∨ hget h "x-acs-version" = none) :
    sign akid secret method url h body =
      .error (hset h "x-acs-content-sha256" (sha256hex (body.getD ""))) := by
  have hne : ∀ k : String, k ≠ "x-acs-content-sha256" →
      hget (hset h "x-acs-content-sha256" (sha256hex (body.getD ""))) k = hget h k := by
    intro k hk
    exact hget_hset_ne h _ k _ (fun he => hk he.symm)
  simp only [sign]
  rcases hmiss with hm | hm | hm | hm
  · rw [hne "x-acs-action" (by decide), hm]
  · rw [hne "x-acs-action" (by decide), hne "x-acs-date" (by decide), hm]
    cases hget h "x-acs-action" <;> rfl
  · rw [hne "x-acs-action" (by decide), hne "x-acs-date" (by decide),
      hne "x-acs-signature-nonce" (by decide), hm]
    cases hget h "x-acs-action" <;> cases hget h "x-acs-date" <;> rfl
  · rw [hne "x-acs-action" (by decide), hne "x-acs-date" (by decide),
      hne "x-acs-signature-nonce" (by decide), hne "x-acs-version" (by decide), hm]
    cases hget h "x-acs-action" <;> cases hget h "x-acs-date" <;>
      cases hget h "x-acs-signature-nonce" <;> rfl

/-- The canonical header block `sign` builds for a call (the value of its
local `canonical_headers`, lines 33-40), when the required headers are
present. -/
def signHeaderBlock (url : String) (h : Headers) (body : Option String) : Option String :=
  match hget h "x-acs-action", hget h "x-acs-date",
      hget h "x-acs-signature-nonce", hget h "x-acs-version" with
  | some a, some d, some n, some v =>
    some (canonicalHeadersOf (urlparse url).netloc a (sha256hex (body.getD "")) d n v)
  | _, _, _, _ => none

/-! ## Claim theorems about the signer -/

/-- C1: for every method, url, headers mapping holding the four required
`x-acs-*` entries and optional body, `sign` builds the canonical request
as METHOD, PATH (defaulting to `/` when the parsed path is empty), the
raw QUERY, the six-line canonical header block, a blank line, the
signed-header-names list and the body hash joined by newlines; it hashes
that into `stringToSign` = `ACS3-HMAC-SHA256` + newline + SHA-256 hex,
signs with HMAC-SHA256 keyed by the secret, and sets `Authorization` to
exactly the `ACS3-HMAC-SHA256 Credential=...,SignedHeaders=...,Signature=...`
line, where the signature is 64 lowercase hex characters. -/
theorem sign_builds_acs3_authorization
    (akid secret method url : String) (h : Headers) (body : Option String)
    (a d n v : String)
    (ha : hget h "x-acs-action" = some a)
    (hd : hget h "x-acs-date" = some d)
    (hn : hget h "x-acs-signature-nonce" = some n)
    (hv : hget h "x-acs-version" = some v) :
    ∃ signature : String,
      signature = hmacSha256hex secret ("ACS3-HMAC-SHA256" ++ "\n" ++ sha256hex (
        method ++ "\n" ++
        (if (urlparse url).path = "" then "/" else (urlparse url).path) ++ "\n" ++
        (urlparse url).query ++ "\n" ++
        ("host:" ++ (urlparse url).netloc ++ "\n" ++
         "x-acs-action:" ++ a ++ "\n" ++
         "x-acs-content-sha256:" ++ sha256hex (body.getD "") ++ "\n" ++
         "x-acs-date:" ++ d ++ "\n" ++
         "x-acs-signature-nonce:" ++ n ++ "\n" ++
         "x-acs-version:" ++ v) ++ "\n\n" ++
        "host;x-acs-action;x-acs-content-sha256;x-acs-date;x-acs-signature-nonce;x-acs-version" ++
        "\n" ++ sha256hex (body.getD ""))) ∧
      sign akid secret method url h body =
        .ok (hset (hset h "x-acs-content-sha256" (sha256hex (body.getD "")))
          "Authorization"
          ("ACS3-HMAC-SHA256 Credential=" ++ akid ++ ",SignedHeaders=" ++
           "host;x-acs-action;x-acs-content-sha256;x-acs-date;x-acs-signature-nonce;x-acs-version" ++
           ",Signature=" ++ signature)) ∧
      signature.length = 64 ∧ (∀ c ∈ signature.data, c ∈ hexChars) := by
  refine ⟨_, rfl, ?_, ?_, ?_⟩
  · exact sign_ok_eq akid secret method url h body a d n v ha hd hn hv
  · exact hmacSha256hex_length secret _
  · exact hexOfBytes_chars _

theorem sign_builds_acs3_authorization_witness :
    sign "akid" "sek" "POST" "https://tingwu.cn-beijing.aliyuncs.com/"
      [("Content-Type", "application/json"), ("x-acs-action", "CreateTask"),
       ("x-acs-version", "2023-09-30"), ("x-acs-date", "2026-01-02T03:04:05Z"),
       ("x-acs-signature-nonce", "n0nce")] (some "bodytext") =
      .ok (hset (hset
        [("Content-Type", "application/json"), ("x-acs-action", "CreateTask"),
         ("x-acs-version", "2023-09-30"), ("x-acs-date", "2026-01-02T03:04:05Z"),
         ("x-acs-signature-nonce", "n0nce")]
        "x-acs-content-sha256" (sha256hex ((some "bodytext").getD "")))
        "Authorization"
        ("ACS3-HMAC-SHA256 Credential=" ++ "akid" ++ ",SignedHeaders=" ++
         "host;x-acs-action;x-acs-content-sha256;x-acs-date;x-acs-signature-nonce;x-acs-version" ++
         ",Signature=" ++ hmacSha256hex "sek" ("ACS3-HMAC-SHA256" ++ "\n" ++ sha256hex (
           "POST" ++ "\n" ++
           (if (urlparse "https://tingwu.cn-beijing.aliyuncs.com/").path = "" then "/"
            else (urlparse "https://tingwu.cn-beijing.aliyuncs.com/").path) ++ "\n" ++
           (urlparse "https://tingwu.cn-beijing.aliyuncs.com/").query ++ "\n" ++
           ("host:" ++ (urlparse "https://tingwu.cn-beijing.aliyuncs.com/").netloc ++ "\n" ++
            "x-acs-action:" ++ "CreateTask" ++ "\n" ++
            "x-acs-content-sha256:" ++ sha256hex ((some "bodytext").getD "") ++ "\n" ++
            "x-acs-date:" ++ "2026-01-02T03:04:05Z" ++ "\n" ++
            "x-acs-signature-nonce:" ++ "n0nce" ++ "\n" ++
            "x-acs-version:" ++ "2023-09-30") ++ "\n\n" ++
           "host;x-acs-action;x-acs-content-sha256;x-acs-date;x-acs-signature-nonce;x-acs-version" ++
           "\n" ++ sha256hex ((some "bodytext").getD ""))))) ∧
    (hmacSha256hex "sek" ("ACS3-HMAC-SHA256" ++ "\n" ++ sha256hex (
       "POST" ++ "\n" ++
       (if (urlparse "https://tingwu.cn-beijing.aliyuncs.com/").path = "" then "/"
        else (urlparse "https://tingwu.cn-beijing.aliyuncs.com/").path) ++ "\n" ++
       (urlparse "https://tingwu.cn-beijing.aliyuncs.com/").query ++ "\n" ++
       ("host:" ++ (urlparse "https://tingwu.cn-beijing.aliyuncs.com/").netloc ++ "\n" ++
        "x-acs-action:" ++ "CreateTask" ++ "\n" ++
        "x-acs-content-sha256:" ++ sha256hex ((some "bodytext").getD "") ++ "\n" ++
        "x-acs-date:" ++ "2026-01-02T03:04:05Z" ++ "\n" ++
        "x-acs-signature-nonce:" ++ "n0nce" ++ "\n" ++
        "x-acs-version:" ++ "2023-09-30") ++ "\n\n" ++
       "host;x-acs-action;x-acs-content-sha256;x-acs-date;x-acs-signature-nonce;x-acs-version" ++
       "\n" ++ sha256hex ((some "bodytext").getD "")))).length = 64 := by
  obtain ⟨s, hs, hsign, hlen, -⟩ :=
    sign_builds_acs3_authorization "akid" "sek" "POST"
      "https://tingwu.cn-beijing.aliyuncs.com/"
      [("Content-Type", "application/json"), ("x-acs-action", "CreateTask"),
       ("x-acs-version", "2023-09-30"), ("x-acs-date", "2026-01-02T03:04:05Z"),
       ("x-acs-signature-nonce", "n0nce")] (some "bodytext")
      "CreateTask" "2026-01-02T03:04:05Z" "n0nce" "2023-09-30"
      (by decide) (by decide) (by decide) (by decide)
  subst hs
  exact ⟨hsign, hlen⟩

/-- C6: the canonical header block `sign` builds lists exactly six
headers in the fixed order host, x-acs-action, x-acs-content-sha256,
x-acs-date, x-acs-signature-nonce, x-acs-version, whatever the insertion
order of the input mapping; the host value comes from the network
location of the parsed URL, never from a caller-supplied `host` entry. -/
theorem sign_canonical_block_fixed_six (akid secret method url : String) (h : Headers)
    (body : Option String) (a d n v : String)
    (ha : hget h "x-acs-action" = some a)
    (hd : hget h "x-acs-date" = some d)
    (hn : hget h "x-acs-signature-nonce" = some n)
    (hv : hget h "x-acs-version" = some v) :
    signHeaderBlock url h body =
      some ("host:" ++ (urlparse url).netloc ++ "\n" ++
        "x-acs-action:" ++ a ++ "\n" ++
        "x-acs-content-sha256:" ++ sha256hex (body.getD "") ++ "\n" ++
        "x-acs-date:" ++ d ++ "\n" ++
        "x-acs-signature-nonce:" ++ n ++ "\n" ++
        "x-acs-version:" ++ v) ∧
    sign akid secret method url h body =
      .ok (hset (hset h "x-acs-content-sha256" (sha256hex (body.getD ""))) "Authorization"
        (authorizationOf akid (hmacSha256hex secret (stringToSignOf (canonicalRequestOf method
          (if (urlparse url).path = "" then "/" else (urlparse url).path)
          (urlparse url).query
          (canonicalHeadersOf (urlparse url).netloc a (sha256hex (body.getD "")) d n v)
          (sha256hex (body.getD ""))))))) ∧
    (∀ h2 : Headers, hget h2 "x-acs-action" = some a → hget h2 "x-acs-date" = some d →
      hget h2 "x-acs-signature-nonce" = some n → hget h2 "x-acs-version" = some v →
      signHeaderBlock url h2 body = signHeaderBlock url h body) ∧
    (∀ hostVal : String,
      signHeaderBlock url (hset h "host" hostVal) body = signHeaderBlock url h body) := by
  refine ⟨?_, sign_ok_eq akid secret method url h body a d n v ha hd hn hv, ?_, ?_⟩
  · simp only [signHeaderBlock, ha, hd, hn, hv]
    rfl
  · intro h2 ha2 hd2 hn2 hv2
    simp only [signHeaderBlock, ha, hd, hn, hv, ha2, hd2, hn2, hv2]
  · intro hostVal
    simp only [signHeaderBlock,
      hget_hset_ne h "host" "x-acs-action" hostVal (by decide),
      hget_hset_ne h "host" "x-acs-date" hostVal (by decide),
      hget_hset_ne h "host" "x-acs-signature-nonce" hostVal (by decide),
      hget_hset_ne h "host" "x-acs-version" hostVal (by decide)]

theorem sign_canonical_block_fixed_six_witness :
    signHeaderBlock "https://tingwu.cn-beijing.aliyuncs.com/"
      [("x-acs-action", "GetTaskInfo"), ("x-acs-version", "2023-09-30"),
       ("x-acs-date", "2026-01-02T03:04:05Z"), ("x-acs-signature-nonce", "n0nce")] none =
      some ("host:" ++ (urlparse "https://tingwu.cn-beijing.aliyuncs.com/").netloc ++ "\n" ++
        "x-acs-action:" ++ "GetTaskInfo" ++ "\n" ++
        "x-acs-content-sha256:" ++ sha256hex ((none : Option String).getD "") ++ "\n" ++
        "x-acs-date:" ++ "2026-01-02T03:04:05Z" ++ "\n" ++
        "x-acs-signature-nonce:" ++ "n0nce" ++ "\n" ++
        "x-acs-version:" ++ "2023-09-30") ∧
    signHeaderBlock "https://tingwu.cn-beijing.aliyuncs.com/"
      [("x-acs-signature-nonce", "n0nce"), ("x-acs-version", "2023-09-30"),
       ("extra", "1"), ("x-acs-action", "GetTaskInfo"),
       ("x-acs-date", "2026-01-02T03:04:05Z")] none =
      signHeaderBlock "https://tingwu.cn-beijing.aliyuncs.com/"
        [("x-acs-action", "GetTaskInfo"), ("x-acs-version", "2023-09-30"),
         ("x-acs-date", "2026-01-02T03:04:05Z"), ("x-acs-signature-nonce", "n0nce")] none ∧
    signHeaderBlock "https://tingwu.cn-beijing.aliyuncs.com/"
      (hset [("x-acs-action", "GetTaskInfo"), ("x-acs-version", "2023-09-30"),
        ("x-acs-date", "2026-01-02T03:04:05Z"), ("x-acs-signature-nonce", "n0nce")]
        "host" "evil.example") none =
      signHeaderBlock "https://tingwu.cn-beijing.aliyuncs.com/"
        [("x-acs-action", "GetTaskInfo"), ("x-acs-version", "2023-09-30"),
         ("x-acs-date", "2026-01-02T03:04:05Z"), ("x-acs-signature-nonce", "n0nce")] none := by
  have t := sign_canonical_block_fixed_six "akid" "sek" "GET"
    "https://tingwu.cn-beijing.aliyuncs.com/"
    [("x-acs-action", "GetTaskInfo"), ("x-acs-version", "2023-09-30"),
     ("x-acs-date", "2026-01-02T03:04:05Z"), ("x-acs-signature-nonce", "n0nce")] none
    "GetTaskInfo" "2026-01-02T03:04:05Z" "n0nce" "2023-09-30"
    (by decide) (by decide) (by decide) (by decide)
  exact ⟨t.1, t.2.2.1 _ (by decide) (by decide) (by decide) (by decide), t.2.2.2 "evil.example"⟩

/-- C7: `sign` is deterministic and depends on nothing but its arguments
and the credentials: two calls with the same method, url, body,
credentials and the same four required header values produce the same
`Authorization` value (in the embedding `sign` is a pure function, so
identical calls are identical a fortiori; the theorem shows the output
is a function of exactly the listed inputs). -/
theorem sign_deterministic (akid secret method url : String) (body : Option String)
    (a d n v : String) (h1 h2 : Headers)
    (ha1 : hget h1 "x-acs-action" = some a)
    (hd1 : hget h1 "x-acs-date" = some d)
    (hn1 : hget h1 "x-acs-signature-nonce" = some n)
    (hv1 : hget h1 "x-acs-version" = some v)
    (ha2 : hget h2 "x-acs-action" = some a)
    (hd2 : hget h2 "x-acs-date" = some d)
    (hn2 : hget h2 "x-acs-signature-nonce" = some n)
    (hv2 : hget h2 "x-acs-version" = some v) :
    ∃ auth r1 r2,
      sign akid secret method url h1 body = .ok r1 ∧
      sign akid secret method url h2 body = .ok r2 ∧
      hget r1 "Authorization" = some auth ∧
      hget r2 "Authorization" = some auth := by
  exact ⟨authorizationOf akid (hmacSha256hex secret (stringToSignOf (canonicalRequestOf method
      (if (urlparse url).path = "" then "/" else (urlparse url).path)
      (urlparse url).query
      (canonicalHeadersOf (urlparse url).netloc a (sha256hex (body.getD "")) d n v)
      (sha256hex (body.getD ""))))), _, _,
    sign_ok_eq akid secret method url h1 body a d n v ha1 hd1 hn1 hv1,
    sign_ok_eq akid secret method url h2 body a d n v ha2 hd2 hn2 hv2,
    hget_hset_self _ _ _, hget_hset_self _ _ _⟩

theorem sign_deterministic_witness :
    Except.map (fun r => hget r "Authorization")
      (sign "akid" "sek" "GET" "https://tingwu.cn-beijing.aliyuncs.com/?TaskId=t1"
        [("x-acs-action", "GetTaskInfo"), ("x-acs-version", "2023-09-30"),
         ("x-acs-date", "2026-01-02T03:04:05Z"), ("x-acs-signature-nonce", "n0nce")] none) =
    Except.map (fun r => hget r "Authorization")
      (sign "akid" "sek" "GET" "https://tingwu.cn-beijing.aliyuncs.com/?TaskId=t1"
        [("extra", "1"), ("x-acs-date", "2026-01-02T03:04:05Z"),
         ("x-acs-version", "2023-09-30"), ("x-acs-signature-nonce", "n0nce"),
         ("x-acs-action", "GetTaskInfo")] none) := by
  obtain ⟨auth, r1, r2, e1, e2, g1, g2⟩ :=
    sign_deterministic "akid" "sek" "GET" "https://tingwu.cn-beijing.aliyuncs.com/?TaskId=t1"
      none "GetTaskInfo" "2026-01-02T03:04:05Z" "n0nce" "2023-09-30"
      [("x-acs-action", "GetTaskInfo"), ("x-acs-version", "2023-09-30"),
       ("x-acs-date", "2026-01-02T03:04:05Z"), ("x-acs-signature-nonce", "n0nce")]
      [("extra", "1"), ("x-acs-date", "2026-01-02T03:04:05Z"),
       ("x-acs-version", "2023-09-30"), ("x-acs-signature-nonce", "n0nce"),
       ("x-acs-action", "GetTaskInfo")]
      (by decide) (by decide) (by decide) (by decide)
      (by decide) (by decide) (by decide) (by decide)
  rw [e1, e2]
  simp [Except.map, g1, g2]

/-- C8: with no body (as in the GET status query), the
`x-acs-content-sha256` header `sign` inserts and the body hash it places
in the canonical request are the lowercase-hex SHA-256 of the empty
string, the fixed constant `e3b0c4...b855`. -/
theorem sign_empty_body_hash_constant (akid secret method url : String) (h : Headers)
    (a d n v : String)
    (ha : hget h "x-acs-action" = some a)
    (hd : hget h "x-acs-date" = some d)
    (hn : hget h "x-acs-signature-nonce" = some n)
    (hv : hget h "x-acs-version" = some v) :
    sha256hex "" = "e3b0c44298fc1c149afbf4c8996fb92427ae41e4649b934ca495991b7852b855" ∧
    sign akid secret method url h none =
      .ok (hset (hset h "x-acs-content-sha256"
          "e3b0c44298fc1c149afbf4c8996fb92427ae41e4649b934ca495991b7852b855")
        "Authorization"
        (authorizationOf akid (hmacSha256hex secret (stringToSignOf (canonicalRequestOf method
          (if (urlparse url).path = "" then "/" else (urlparse url).path)
          (urlparse url).query
          (canonicalHeadersOf (urlparse url).netloc a
            "e3b0c44298fc1c149afbf4c8996fb92427ae41e4649b934ca495991b7852b855" d n v)
          "e3b0c44298fc1c149afbf4c8996fb92427ae41e4649b934ca495991b7852b855"))))) := by
  have hconst : sha256hex "" =
      "e3b0c44298fc1c149afbf4c8996fb92427ae41e4649b934ca495991b7852b855" := by decide
  have hmain := sign_ok_eq akid secret method url h none a d n v ha hd hn hv
  rw [Option.getD_none, hconst] at hmain
  exact ⟨hconst, hmain⟩

theorem sign_empty_body_hash_constant_witness :
    sha256hex "" = "e3b0c44298fc1c149afbf4c8996fb92427ae41e4649b934ca495991b7852b855" ∧
    sign "akid" "sek" "GET" "https://tingwu.cn-beijing.aliyuncs.com/?TaskId=t1"
      [("x-acs-action", "GetTaskInfo"), ("x-acs-version", "2023-09-30"),
       ("x-acs-date", "2026-01-02T03:04:05Z"), ("x-acs-signature-nonce", "n0nce")] none =
      .ok (hset (hset
        [("x-acs-action", "GetTaskInfo"), ("x-acs-version", "2023-09-30"),
         ("x-acs-date", "2026-01-02T03:04:05Z"), ("x-acs-signature-nonce", "n0nce")]
        "x-acs-content-sha256"
        "e3b0c44298fc1c149afbf4c8996fb92427ae41e4649b934ca495991b7852b855")
        "Authorization"
        (authorizationOf "akid" (hmacSha256hex "sek" (stringToSignOf (canonicalRequestOf "GET"
          (if (urlparse "https://tingwu.cn-beijing.aliyuncs.com/?TaskId=t1").path = "" then "/"
           else (urlparse "https://tingwu.cn-beijing.aliyuncs.com/?TaskId=t1").path)
          (urlparse "https://tingwu.cn-beijing.aliyuncs.com/?TaskId=t1").query
          (canonicalHeadersOf (urlparse "https://tingwu.cn-beijing.aliyuncs.com/?TaskId=t1").netloc
            "GetTaskInfo"
            "e3b0c44298fc1c149afbf4c8996fb92427ae41e4649b934ca495991b7852b855"
            "2026-01-02T03:04:05Z" "n0nce" "2023-09-30")
          "e3b0c44298fc1c149afbf4c8996fb92427ae41e4649b934ca495991b7852b855"))))) :=
  sign_empty_body_hash_constant "akid" "sek" "GET"
    "https://tingwu.cn-beijing.aliyuncs.com/?TaskId=t1"
    [("x-acs-action", "GetTaskInfo"), ("x-acs-version", "2023-09-30"),
     ("x-acs-date", "2026-01-02T03:04:05Z"), ("x-acs-signature-nonce", "n0nce")]
    "GetTaskInfo" "2026-01-02T03:04:05Z" "n0nce" "2023-09-30"
    (by decide) (by decide) (by decide) (by decide)

/-- C9: `sign` returns the very mapping it was given, augmented with
`x-acs-content-sha256` and `Authorization`; the value of every other key
is unchanged. -/
theorem sign_frame_two_keys (akid secret method url : String) (h : Headers)
    (body : Option String) (a d n v : String)
    (ha : hget h "x-acs-action" = some a)
    (hd : hget h "x-acs-date" = some d)
    (hn : hget h "x-acs-signature-nonce" = some n)
    (hv : hget h "x-acs-version" = some v) :
    ∃ r, sign akid secret method url h body = .ok r ∧
      r = hset (hset h "x-acs-content-sha256" (sha256hex (body.getD "")))
        "Authorization"
        (authorizationOf akid (hmacSha256hex secret (stringToSignOf (canonicalRequestOf method
          (if (urlparse url).path = "" then "/" else (urlparse url).path)
          (urlparse url).query
          (canonicalHeadersOf (urlparse url).netloc a (sha256hex (body.getD "")) d n v)
          (sha256hex (body.getD "")))))) ∧
      hget r "x-acs-content-sha256" = some (sha256hex (body.getD "")) ∧
      (hget r "Authorization").isSome = true ∧
      ∀ k : String, k ≠ "x-acs-content-sha256" → k ≠ "Authorization" →
        hget r k = hget h k := by
  refine ⟨_, sign_ok_eq akid secret method url h body a d n v ha hd hn hv, rfl, ?_, ?_, ?_⟩
  · rw [hget_hset_ne _ _ _ _ (by decide), hget_hset_self]
  · rw [hget_hset_self]
    rfl
  · intro k hk1 hk2
    rw [hget_hset_ne _ _ _ _ (fun he => hk2 he.symm),
      hget_hset_ne _ _ _ _ (fun he => hk1 he.symm)]

theorem sign_frame_two_keys_witness :
    Except.map (fun r =>
        (hget r "x-acs-content-sha256", hget r "Content-Type", hget r "x-acs-action"))
      (sign "akid" "sek" "POST" "https://tingwu.cn-beijing.aliyuncs.com/"
        [("Content-Type", "application/json"), ("x-acs-action", "CreateTask"),
         ("x-acs-version", "2023-09-30"), ("x-acs-date", "2026-01-02T03:04:05Z"),
         ("x-acs-signature-nonce", "n0nce")] (some "bodytext")) =
      .ok (some (sha256hex ((some "bodytext").getD "")),
        some "application/json", some "CreateTask") := by
  obtain ⟨r, hsign, -, hsha, -, hframe⟩ :=
    sign_frame_two_keys "akid" "sek" "POST" "https://tingwu.cn-beijing.aliyuncs.com/"
      [("Content-Type", "application/json"), ("x-acs-action", "CreateTask"),
       ("x-acs-version", "2023-09-30"), ("x-acs-date", "2026-01-02T03:04:05Z"),
       ("x-acs-signature-nonce", "n0nce")] (some "bodytext")
      "CreateTask" "2026-01-02T03:04:05Z" "n0nce" "2023-09-30"
      (by decide) (by decide) (by decide) (by decide)
  rw [hsign]
  simp only [Except.map, hsha,
    hframe "Content-Type" (by decide) (by decide),
    hframe "x-acs-action" (by decide) (by decide)]
  decide

/-- C10: a headers mapping missing any of the four required `x-acs-*`
entries makes `sign` raise `KeyError`, at a point where
`x-acs-content-sha256` has already been inserted into the mapping; with
all four present, every lookup succeeds and `sign` returns normally. -/
theorem sign_missing_header_keyerror (akid secret method url : String) (h : Headers)
    (body : Option String) :
    ((hget h "x-acs-action" = none ∨ hget h "x-acs-date" = none ∨
      hget h "x-acs-signature-nonce" = none ∨ hget h "x-acs-version" = none) →
      sign akid secret method url h body =
        .error (hset h "x-acs-content-sha256" (sha256hex (body.getD "")))) ∧
    (∀ a d n v : String, hget h "x-acs-action" = some a → hget h "x-acs-date" = some d →
      hget h "x-acs-signature-nonce" = some n → hget h "x-acs-version" = some v →
      ∃ r, sign akid secret method url h body = .ok r) :=
  ⟨fun hmiss => sign_error_eq akid secret method url h body hmiss,
   fun a d n v ha hd hn hv =>
     ⟨_, sign_ok_eq akid secret method url h body a d n v ha hd hn hv⟩⟩

theorem sign_missing_header_keyerror_witness :
    sign "akid" "sek" "GET" "https://tingwu.cn-beijing.aliyuncs.com/"
      [("x-acs-date", "2026-01-02T03:04:05Z")] none =
      .error [("x-acs-date", "2026-01-02T03:04:05Z"),
        ("x-acs-content-sha256",
         "e3b0c44298fc1c149afbf4c8996fb92427ae41e4649b934ca495991b7852b855")] ∧
    (sign "akid" "sek" "GET" "https://tingwu.cn-beijing.aliyuncs.com/"
      [("x-acs-action", "GetTaskInfo"), ("x-acs-version", "2023-09-30"),
       ("x-acs-date", "2026-01-02T03:04:05Z"), ("x-acs-signature-nonce", "n0nce")]
      none).toOption.isSome = true := by
  constructor
  · rw [(sign_missing_header_keyerror "akid" "sek" "GET"
      "https://tingwu.cn-beijing.aliyuncs.com/"
      [("x-acs-date", "2026-01-02T03:04:05Z")] none).1 (Or.inl (by decide))]
    decide
  · obtain ⟨r, hr⟩ := (sign_missing_header_keyerror "akid" "sek" "GET"
      "https://tingwu.cn-beijing.aliyuncs.com/"
      [("x-acs-action", "GetTaskInfo"), ("x-acs-version", "2023-09-30"),
       ("x-acs-date", "2026-01-02T03:04:05Z"), ("x-acs-signature-nonce", "n0nce")]
      none).2 "GetTaskInfo" "2026-01-02T03:04:05Z" "n0nce" "2023-09-30"
      (by decide) (by decide) (by decide) (by decide)
    rw [hr]
    rfl

/-! ## Scanning lemmas for URL parsing with a symbolic suffix -/

theorem splitFirst_none_of_not_mem (c : Char) (l : List Char) (h : c ∉ l) :
    splitFirst c l = none := by
  induction l with
  | nil => rfl
  | cons x xs ih =>
    have hx : x ≠ c := fun he => h (he ▸ List.mem_cons_self x xs)
    have hxs : c ∉ xs := fun hm => h (List.mem_cons_of_mem x hm)
    simp [splitFirst, hx, ih hxs]

theorem splitFirst_append_some (c : Char) (l1 : List Char) :
    ∀ l2 a b : List Char, splitFirst c l1 = some (a, b) →
      splitFirst c (l1 ++ l2) = some (a, b ++ l2) := by
  induction l1 with
  | nil => intro l2 a b h; simp [splitFirst] at h
  | cons x xs ih =>
    intro l2 a b h
    simp only [splitFirst] at h
    by_cases hx : x = c
    · rw [if_pos hx] at h
      simp only [Option.some.injEq, Prod.mk.injEq] at h
      obtain ⟨ha, hb⟩ := h
      subst ha
      subst hb
      rw [List.cons_append]
      simp [splitFirst, hx]
    · rw [if_neg hx] at h
      cases hsp : splitFirst c xs with
      | none => rw [hsp] at h; exact absurd h (by simp)
      | some p =>
        rw [hsp] at h
        simp only [Option.some.injEq, Prod.mk.injEq] at h
        obtain ⟨ha, hb⟩ := h
        subst ha
        subst hb
        rw [List.cons_append]
        simp only [splitFirst, if_neg hx, ih l2 p.1 p.2 hsp]

theorem splitFirst_append_none (c : Char) (l1 l2 : List Char)
    (h : splitFirst c l1 = none) (h2 : splitFirst c l2 = none) :
    splitFirst c (l1 ++ l2) = none := by
  induction l1 with
  | nil => simpa using h2
  | cons x xs ih =>
    simp only [splitFirst] at h
    by_cases hx : x = c
    · rw [if_pos hx] at h
      exact absurd h (by simp)
    · rw [if_neg hx] at h
      cases hsp : splitFirst c xs with
      | none =>
        rw [List.cons_append]
        simp only [splitFirst, if_neg hx, ih hsp]
      | some p => rw [hsp] at h; exact absurd h (by simp)

theorem takeUntilDelims_append_stop (d : List Char) (l1 : List Char) :
    ∀ l2 a b : List Char, takeUntilDelims d l1 = (a, b) → b ≠ [] →
      takeUntilDelims d (l1 ++ l2) = (a, b ++ l2) := by
  induction l1 with
  | nil =>
    intro l2 a b h hb
    simp only [takeUntilDelims, Prod.mk.injEq] at h
    exact absurd h.2.symm hb
  | cons x xs ih =>
    intro l2 a b h hb
    simp only [takeUntilDelims] at h
    by_cases hx : d.contains x
    · rw [if_pos hx] at h
      simp only [Prod.mk.injEq] at h
      obtain ⟨ha, hb2⟩ := h
      subst ha
      subst hb2
      rw [List.cons_append]
      simp only [takeUntilDelims, if_pos hx]
    · rw [if_neg hx] at h
      simp only [Prod.mk.injEq] at h
      obtain ⟨ha, hb2⟩ := h
      subst ha
      subst hb2
      have hih := ih l2 (takeUntilDelims d xs).1 (takeUntilDelims d xs).2 rfl hb
      rw [List.cons_append]
      simp only [takeUntilDelims, if_neg hx, hih]

/-! ## `urlparse` on the status-query URL, with a symbolic task id -/

theorem splitScheme_get_task (t : List Char) :
    splitScheme ("https://tingwu.cn-beijing.aliyuncs.com/?TaskId=".data ++ t) =
      ("https".data, "//tingwu.cn-beijing.aliyuncs.com/?TaskId=".data ++ t) := by
  unfold splitScheme
  rw [splitFirst_append_some ':' "https://tingwu.cn-beijing.aliyuncs.com/?TaskId=".data t
    "https".data "//tingwu.cn-beijing.aliyuncs.com/?TaskId=".data (by decide)]
  rfl

theorem splitNetloc_get_task (t : List Char) :
    splitNetloc ("//tingwu.cn-beijing.aliyuncs.com/?TaskId=".data ++ t) =
      ("tingwu.cn-beijing.aliyuncs.com".data, "/?TaskId=".data ++ t) := by
  rw [show "//tingwu.cn-beijing.aliyuncs.com/?TaskId=".data =
    '/' :: '/' :: "tingwu.cn-beijing.aliyuncs.com/?TaskId=".data from by decide]
  rw [List.cons_append, List.cons_append]
  show takeUntilDelims ['/', '?', '#'] ("tingwu.cn-beijing.aliyuncs.com/?TaskId=".data ++ t) = _
  exact takeUntilDelims_append_stop ['/', '?', '#']
    "tingwu.cn-beijing.aliyuncs.com/?TaskId=".data t
    "tingwu.cn-beijing.aliyuncs.com".data "/?TaskId=".data (by decide) (by decide)

theorem splitFragment_get_task (t : List Char) (hm : '#' ∉ t) :
    splitFragment ("/?TaskId=".data ++ t) = ("/?TaskId=".data ++ t, []) := by
  unfold splitFragment
  rw [splitFirst_append_none '#' "/?TaskId=".data t (by decide)
    (splitFirst_none_of_not_mem '#' t hm)]

theorem splitQuery_get_task (t : List Char) :
    splitQuery ("/?TaskId=".data ++ t) = (['/'], "TaskId=".data ++ t) := by
  unfold splitQuery
  rw [splitFirst_append_some '?' "/?TaskId=".data t ['/'] "TaskId=".data (by decide)]

/-- The URL `get_task` signs and requests parses with path `/` and the
job identifier in the raw query, for any task id free of `#`. -/
theorem urlparse_get_task_url (task_id : String) (hm : '#' ∉ task_id.data) :
    urlparse (get_task_url task_id) =
      ⟨"https", "tingwu.cn-beijing.aliyuncs.com", "/", "", "TaskId=" ++ task_id, ""⟩ := by
  have hdata : (get_task_url task_id).data =
      "https://tingwu.cn-beijing.aliyuncs.com/?TaskId=".data ++ task_id.data := rfl
  unfold urlparse
  rw [hdata, splitScheme_get_task task_id.data]
  dsimp only
  rw [splitNetloc_get_task task_id.data]
  dsimp only
  rw [splitFragment_get_task task_id.data hm]
  dsimp only
  rw [splitQuery_get_task task_id.data]
  dsimp only
  rw [if_neg (by decide)]
  rfl

/-! ## Polling loop lemmas -/

/-- The evaluation of the chained lookups in line 142, `get` of `Data`
with an empty-dict default followed by `get` of `TaskStatus`, as one
step. -/
def taskStatusOf (status : Json) : Except PyExc Json :=
  match pyDictGet status "Data" (.obj []) with
  | .error e => .error e
  | .ok data => pyDictGet data "TaskStatus" .null

theorem jeqStr_iff (j : Json) (s : String) : jeqStr j s = true ↔ j = .str s := by
  cases j <;> simp [jeqStr]

theorem loopStep_success (j : Json) :
    loopStep (.success j) =
      if truthy j then
        match taskStatusOf j with
        | .error e => .exc e
        | .ok ts =>
          if jeqStr ts "COMPLETED" then .completed j
          else if jeqStr ts "FAILED" then .failed j
          else .cont
      else .cont := by
  by_cases ht : truthy j
  · cases hD : pyDictGet j "Data" (.obj []) with
    | error e => simp [loopStep, get_task, requestAttempt, taskStatusOf, hD, ht]
    | ok data => simp [loopStep, get_task, requestAttempt, taskStatusOf, hD, ht]
  · simp [loopStep, get_task, requestAttempt, ht]

theorem loopStep_completed_iff (o : HttpOutcome) (j : Json) :
    loopStep o = .completed j ↔
      o = .success j ∧ truthy j = true ∧ taskStatusOf j = .ok (.str "COMPLETED") := by
  cases o with
  | httpError c b => simp [loopStep, get_task, requestAttempt]
  | transportError m => simp [loopStep, get_task, requestAttempt]
  | success s =>
    rw [loopStep_success]
    constructor
    · intro h
      by_cases ht : truthy s
      · rw [if_pos ht] at h
        cases hT : taskStatusOf s with
        | error e => rw [hT] at h; exact absurd h (by simp)
        | ok ts =>
          simp only [hT] at h
          by_cases hc : jeqStr ts "COMPLETED" = true
          · rw [if_pos hc] at h
            simp only [StepRes.completed.injEq] at h
            subst h
            exact ⟨rfl, ht, by rwa [(jeqStr_iff ts "COMPLETED").mp hc] at hT⟩
          · rw [if_neg hc] at h
            by_cases hf : jeqStr ts "FAILED" = true
            · rw [if_pos hf] at h; exact absurd h (by simp)
            · rw [if_neg hf] at h; exact absurd h (by simp)
      · rw [if_neg ht] at h; exact absurd h (by simp)
    · rintro ⟨he, ht, hT⟩
      injection he with hsj
      subst hsj
      rw [if_pos ht]
      simp only [hT]
      simp [jeqStr]

theorem loopStep_failed_iff (o : HttpOutcome) (j : Json) :
    loopStep o = .failed j ↔
      o = .success j ∧ truthy j = true ∧ taskStatusOf j = .ok (.str "FAILED") := by
  cases o with
  | httpError c b => simp [loopStep, get_task, requestAttempt]
  | transportError m => simp [loopStep, get_task, requestAttempt]
  | success s =>
    rw [loopStep_success]
    constructor
    · intro h
      by_cases ht : truthy s
      · rw [if_pos ht] at h
        cases hT : taskStatusOf s with
        | error e => rw [hT] at h; exact absurd h (by simp)
        | ok ts =>
          simp only [hT] at h
          by_cases hc : jeqStr ts "COMPLETED" = true
          · rw [if_pos hc] at h; exact absurd h (by simp)
          · rw [if_neg hc] at h
            by_cases hf : jeqStr ts "FAILED" = true
            · rw [if_pos hf] at h
              simp only [StepRes.failed.injEq] at h
              subst h
              exact ⟨rfl, ht, by rwa [(jeqStr_iff ts "FAILED").mp hf] at hT⟩
            · rw [if_neg hf] at h; exact absurd h (by simp)
      · rw [if_neg ht] at h; exact absurd h (by simp)
    · rintro ⟨he, ht, hT⟩
      injection he with hsj
      subst hsj
      rw [if_pos ht]
      simp only [hT]
      have hcf : jeqStr (Json.str "FAILED") "COMPLETED" = false := by decide
      have hff : jeqStr (Json.str "FAILED") "FAILED" = true := by decide
      rw [if_neg (by simp [hcf]), if_pos hff]

theorem loopStep_cont_iff (o : HttpOutcome) :
    loopStep o = .cont ↔
      (∃ c b, o = .httpError c b) ∨
      (∃ j, o = .success j ∧ (truthy j = false ∨
        (∃ ts, taskStatusOf j = .ok ts ∧
          jeqStr ts "COMPLETED" = false ∧ jeqStr ts "FAILED" = false))) := by
  cases o with
  | httpError c b => simp [loopStep, get_task, requestAttempt]
  | transportError m => simp [loopStep, get_task, requestAttempt]
  | success s =>
    rw [loopStep_success]
    constructor
    · intro h
      refine Or.inr ⟨s, rfl, ?_⟩
      by_cases ht : truthy s
      · rw [if_pos ht] at h
        cases hT : taskStatusOf s with
        | error e => rw [hT] at h; exact absurd h (by simp)
        | ok ts =>
          simp only [hT] at h
          by_cases hc : jeqStr ts "COMPLETED" = true
          · rw [if_pos hc] at h; exact absurd h (by simp)
          · rw [if_neg hc] at h
            by_cases hf : jeqStr ts "FAILED" = true
            · rw [if_pos hf] at h; exact absurd h (by simp)
            · exact Or.inr ⟨ts, rfl, Bool.eq_false_iff.mpr hc, Bool.eq_false_iff.mpr hf⟩
      · exact Or.inl (Bool.eq_false_iff.mpr ht)
    · rintro (⟨c, b, he⟩ | ⟨j, he, hP⟩)
      · exact HttpOutcome.noConfusion he
      · injection he with hsj
        subst hsj
        rcases hP with ht | ⟨ts, hT, hc, hf⟩
        · rw [if_neg (by simp [ht])]
        · by_cases ht : truthy s
          · rw [if_pos ht]
            simp only [hT]
            rw [if_neg (by simp [hc]), if_neg (by simp [hf])]
          · rw [if_neg ht]

theorem loopStep_transportError (m : String) :
    loopStep (.transportError m) = .exc (.urlError m) := rfl

theorem pollLoop_cons (o : HttpOutcome) (rest : List HttpOutcome) :
    pollLoop (o :: rest) =
      match loopStep o with
      | .cont => pollLoop rest
      | .completed j => .completed j
      | .failed j => .failed j
      | .exc e => .uncaught e := rfl

theorem pollLoop_stillPolling_iff (trace : List HttpOutcome) :
    pollLoop trace = .stillPolling ↔ ∀ o ∈ trace, loopStep o = .cont := by
  induction trace with
  | nil => simp [pollLoop]
  | cons o rest ih =>
    rw [pollLoop_cons]
    cases h : loopStep o with
    | cont => simp [h, ih]
    | completed j => simp [h]
    | failed j => simp [h]
    | exc e => simp [h]

theorem pollEvents_cons (o : HttpOutcome) (rest : List HttpOutcome) :
    pollEvents (o :: rest) =
      .sleep POLL_INTERVAL :: .pollCall ::
        (match loopStep o with
         | StepRes.cont => pollEvents rest
         | _ => []) := rfl

theorem pollEvents_sleep_before_poll (trace : List HttpOutcome) :
    ∀ i : Nat, (pollEvents trace).get? i = some .pollCall →
      1 ≤ i ∧ (pollEvents trace).get? (i - 1) = some (.sleep POLL_INTERVAL) := by
  induction trace with
  | nil => intro i h; simp [pollEvents] at h
  | cons o rest ih =>
    intro i h
    match i with
    | 0 =>
      rw [pollEvents_cons] at h
      simp at h
    | 1 =>
      refine ⟨le_refl 1, ?_⟩
      rw [pollEvents_cons]
      rfl
    | (k + 2) =>
      rw [pollEvents_cons] at h
      simp only [List.get?_cons_succ] at h
      cases hstep : loopStep o with
      | cont =>
        rw [hstep] at h
        obtain ⟨hk, hs⟩ := ih k h
        refine ⟨by omega, ?_⟩
        rw [pollEvents_cons]
        have hidx : k + 2 - 1 = (k - 1) + 2 := by omega
        rw [hidx]
        simp only [List.get?_cons_succ]
        rw [hstep]
        exact hs
      | completed j => rw [hstep] at h; simp at h
      | failed j => rw [hstep] at h; simp at h
      | exc e => rw [hstep] at h; simp at h

/-! ## Exception-freedom predicates on transport outcomes -/

/-- A `Data` value whose `.get("TaskStatus")` does not raise: a dict. -/
def pollSafeData : Json → Bool
  | .obj _ => true
  | _ => false

/-- A truthy poll response the loop body reads without raising. -/
def pollSafeBody : Json → Bool
  | .obj fields =>
    (match jget fields "Data" with
     | none => true
     | some d => pollSafeData d)
  | _ => false

/-- A poll outcome that the loop body handles without raising: anything
except a transport failure and except a truthy non-dict response or a
non-dict `Data` field (whose `.get` would raise `AttributeError`). -/
def pollSafe : HttpOutcome → Bool
  | .transportError _ => false
  | .httpError _ _ => true
  | .success j => !truthy j || pollSafeBody j

/-- A `Data` value `__main__` can test for `TaskId` and subscript without
raising: a dict, or a list or string not containing the key (their
membership test succeeds and then the guard fails, so the subscript that
would raise is never reached). -/
def createSafeData : Json → Bool
  | .obj _ => true
  | .arr l => !(l.any (fun x => jeqStr x "TaskId"))
  | .str s => !(containsSub "TaskId".data s.data)
  | _ => false

/-- A truthy submit response `__main__` reads without raising. -/
def createSafeBody : Json → Bool
  | .obj fields =>
    (match jget fields "Data" with
     | none => true
     | some d => createSafeData d)
  | .arr l => !(l.any (fun x => jeqStr x "Data"))
  | .str s => !(containsSub "Data".data s.data)
  | _ => false

/-- A submit outcome that `__main__` handles without raising: anything
except a transport failure and except truthy responses whose guard or
subscript expressions would raise (`in` on a number, subscripting a
list or string, ...). -/
def createSafe : HttpOutcome → Bool
  | .transportError _ => false
  | .httpError _ _ => true
  | .success j => !truthy j || createSafeBody j

theorem taskStatusOf_ok_of_safe (j : Json) (hs : pollSafe (.success j) = true)
    (ht : truthy j = true) : ∃ ts, taskStatusOf j = .ok ts := by
  simp only [pollSafe, ht, Bool.not_true, Bool.false_or] at hs
  cases j with
  | obj fields =>
    simp only [pollSafeBody] at hs
    cases hD : jget fields "Data" with
    | none => exact ⟨.null, by simp [taskStatusOf, pyDictGet, hD, jget]⟩
    | some d =>
      rw [hD] at hs
      cases d with
      | obj ds =>
        exact ⟨(jget ds "TaskStatus").getD .null, by simp [taskStatusOf, pyDictGet, hD]⟩
      | null => simp [pollSafeData] at hs
      | bool b => simp [pollSafeData] at hs
      | num n => simp [pollSafeData] at hs
      | str s => simp [pollSafeData] at hs
      | arr l => simp [pollSafeData] at hs
  | null => simp [pollSafeBody] at hs
  | bool b => simp [pollSafeBody] at hs
  | num n => simp [pollSafeBody] at hs
  | str s => simp [pollSafeBody] at hs
  | arr l => simp [pollSafeBody] at hs

theorem pollSafe_no_exc (o : HttpOutcome) (hs : pollSafe o = true) :
    ∀ e, loopStep o ≠ .exc e := by
  intro e
  cases o with
  | transportError m => simp [pollSafe] at hs
  | httpError c b => simp [loopStep, get_task, requestAttempt]
  | success j =>
    rw [loopStep_success]
    by_cases ht : truthy j
    · rw [if_pos ht]
      obtain ⟨ts, hT⟩ := taskStatusOf_ok_of_safe j hs ht
      simp only [hT]
      by_cases hc : jeqStr ts "COMPLETED" = true
      · rw [if_pos hc]; simp
      · rw [if_neg hc]
        by_cases hf : jeqStr ts "FAILED" = true
        · rw [if_pos hf]; simp
        · rw [if_neg hf]; simp
    · rw [if_neg ht]; simp

theorem pollLoop_no_uncaught (trace : List HttpOutcome)
    (hs : ∀ o ∈ trace, pollSafe o = true) : ∀ e, pollLoop trace ≠ .uncaught e := by
  induction trace with
  | nil => intro e; simp [pollLoop]
  | cons o rest ih =>
    intro e
    rw [pollLoop_cons]
    cases hstep : loopStep o with
    | cont => exact ih (fun o' ho' => hs o' (List.mem_cons_of_mem o ho')) e
    | completed j => simp
    | failed j => simp
    | exc e2 => exact absurd hstep (pollSafe_no_exc o (hs o (List.mem_cons_self o rest)) e2)

/-! ## `__main__` lemmas -/

theorem truthy_obj_of_jget (fields : List (String × Json)) (k : String) (v : Json)
    (h : jget fields k = some v) : truthy (.obj fields) = true := by
  cases fields with
  | nil => simp [jget] at h
  | cons kv t => simp [truthy]

/-- The successful submit path: a truthy object response with a `TaskId`
under `Data` sends `__main__` into the polling loop on that very id. -/
theorem main_run_success_taskid (argv : List String) (trace : List HttpOutcome)
    (fields ds : List (String × Json)) (t : Json)
    (hlen : ¬ argv.length < 2)
    (hD : jget fields "Data" = some (.obj ds))
    (hT : jget ds "TaskId" = some t) :
    main_run ⟨argv, .success (.obj fields), trace⟩ = .polled t (pollLoop trace) := by
  have ht : truthy (.obj fields) = true := truthy_obj_of_jget fields "Data" _ hD
  simp [main_run, create_task, requestAttempt, ht, pyContains, pySubscript, hD, hT]
  omega

theorem main_run_usage (inp : MainInput) (hlen : inp.argv.length < 2) :
    main_run inp = .usageExit 1 := by
  simp [main_run, hlen]

theorem main_run_httpError (argv : List String) (trace : List HttpOutcome)
    (code : Nat) (body : String) (hlen : ¬ argv.length < 2) :
    main_run ⟨argv, .httpError code body, trace⟩ = .noResult := by
  simp [main_run, hlen, create_task, requestAttempt]

theorem main_run_transportError (argv : List String) (trace : List HttpOutcome)
    (msg : String) (hlen : ¬ argv.length < 2) :
    main_run ⟨argv, .transportError msg, trace⟩ = .uncaught (.urlError msg) := by
  simp [main_run, hlen, create_task, requestAttempt]

theorem main_run_no_uncaught (inp : MainInput)
    (hc : createSafe inp.createOutcome = true)
    (hp : ∀ o ∈ inp.pollOutcomes, pollSafe o = true) :
    (∀ e, main_run inp ≠ .uncaught e) ∧
    (∀ t e, main_run inp ≠ .polled t (.uncaught e)) := by
  obtain ⟨argv, co, trace⟩ := inp
  simp only at hc hp
  by_cases hlen : argv.length < 2
  · have hmain := main_run_usage ⟨argv, co, trace⟩ hlen
    exact ⟨fun e heq => by rw [hmain] at heq; exact MainRes.noConfusion heq,
      fun t e heq => by rw [hmain] at heq; exact MainRes.noConfusion heq⟩
  · cases co with
    | transportError m => simp [createSafe] at hc
    | httpError code body =>
      have hmain := main_run_httpError argv trace code body hlen
      exact ⟨fun e heq => by rw [hmain] at heq; exact MainRes.noConfusion heq,
        fun t e heq => by rw [hmain] at heq; exact MainRes.noConfusion heq⟩
    | success j =>
      by_cases ht : truthy j
      · have hc1 : (!truthy j || createSafeBody j) = true := hc
        rw [ht] at hc1
        have hc2 := hc1
        simp only [Bool.not_true, Bool.false_or] at hc2
        cases j with
        | null => simp [truthy] at ht
        | bool b => simp [createSafeBody] at hc2
        | num n => simp [createSafeBody] at hc2
        | str s =>
          simp only [createSafeBody, Bool.not_eq_true'] at hc2
          have hmain : main_run ⟨argv, .success (.str s), trace⟩ = .noTaskId := by
            simp [main_run, hlen, create_task, requestAttempt, ht, pyContains, hc2]
          exact ⟨fun e heq => by rw [hmain] at heq; exact MainRes.noConfusion heq,
            fun t e heq => by rw [hmain] at heq; exact MainRes.noConfusion heq⟩
        | arr l =>
          simp only [createSafeBody, Bool.not_eq_true'] at hc2
          have hmain : main_run ⟨argv, .success (.arr l), trace⟩ = .noTaskId := by
            simp [main_run, hlen, create_task, requestAttempt, ht, pyContains, hc2]
          exact ⟨fun e heq => by rw [hmain] at heq; exact MainRes.noConfusion heq,
            fun t e heq => by rw [hmain] at heq; exact MainRes.noConfusion heq⟩
        | obj fields =>
          simp only [createSafeBody] at hc2
          have hc3 := hc2
          cases hD : jget fields "Data" with
          | none =>
            have hmain : main_run ⟨argv, .success (.obj fields), trace⟩ = .noTaskId := by
              simp [main_run, hlen, create_task, requestAttempt, ht, pyContains, hD]
            exact ⟨fun e heq => by rw [hmain] at heq; exact MainRes.noConfusion heq,
              fun t e heq => by rw [hmain] at heq; exact MainRes.noConfusion heq⟩
          | some d =>
            rw [hD] at hc3
            cases d with
            | null => simp [createSafeData] at hc3
            | bool b => simp [createSafeData] at hc3
            | num n => simp [createSafeData] at hc3
            | str s =>
              simp only [createSafeData, Bool.not_eq_true'] at hc3
              have hmain : main_run ⟨argv, .success (.obj fields), trace⟩ = .noTaskId := by
                simp [main_run, hlen, create_task, requestAttempt, ht, pyContains,
                  pySubscript, hD, hc3]
              exact ⟨fun e heq => by rw [hmain] at heq; exact MainRes.noConfusion heq,
                fun t e heq => by rw [hmain] at heq; exact MainRes.noConfusion heq⟩
            | arr l =>
              simp only [createSafeData, Bool.not_eq_true'] at hc3
              have hmain : main_run ⟨argv, .success (.obj fields), trace⟩ = .noTaskId := by
                simp [main_run, hlen, create_task, requestAttempt, ht, pyContains,
                  pySubscript, hD, hc3]
              exact ⟨fun e heq => by rw [hmain] at heq; exact MainRes.noConfusion heq,
                fun t e heq => by rw [hmain] at heq; exact MainRes.noConfusion heq⟩
            | obj ds =>
              cases hT : jget ds "TaskId" with
              | none =>
                have hmain : main_run ⟨argv, .success (.obj fields), trace⟩ = .noTaskId := by
                  simp [main_run, hlen, create_task, requestAttempt, ht, pyContains,
                    pySubscript, hD, hT]
                exact ⟨fun e heq => by rw [hmain] at heq; exact MainRes.noConfusion heq,
                  fun t e heq => by rw [hmain] at heq; exact MainRes.noConfusion heq⟩
              | some t =>
                have hmain := main_run_success_taskid argv trace fields ds t hlen hD hT
                refine ⟨fun e heq => ?_, fun t2 e heq => ?_⟩
                · rw [hmain] at heq
                  exact MainRes.noConfusion heq
                · rw [hmain] at heq
                  injection heq with h1 h2
                  exact pollLoop_no_uncaught trace hp e h2
      · have hmain : main_run ⟨argv, .success j, trace⟩ = .noResult := by
          simp [main_run, hlen, create_task, requestAttempt, ht]
        exact ⟨fun e heq => by rw [hmain] at heq; exact MainRes.noConfusion heq,
          fun t e heq => by rw [hmain] at heq; exact MainRes.noConfusion heq⟩

/-! ## Claim theorems about the task client and loop -/

/-- C3 counterexample: a transport-level failure of the poll call does
not make the loop continue - the `except` clause catches only
`HTTPError`, so the failure propagates and aborts the loop at once. -/
theorem polling_transport_failure_not_continue :
    pollLoop [.transportError "timed out"] = .uncaught (.urlError "timed out") ∧
    pollLoop [.transportError "timed out"] ≠ .stillPolling ∧
    loopStep (.transportError "timed out") ≠ .cont := by
  refine ⟨rfl, fun h => ?_, fun h => ?_⟩
  · rw [show pollLoop [.transportError "timed out"] =
      .uncaught (.urlError "timed out") from rfl] at h
    exact LoopRes.noConfusion h
  · rw [show loopStep (.transportError "timed out") =
      .exc (.urlError "timed out") from rfl] at h
    exact StepRes.noConfusion h

/-- C3 (amended): the loop sleeps a fixed 10 seconds before every poll
and queries with the job identifier as the raw `TaskId` query parameter;
a poll ends the loop in success exactly when the response is truthy with
`TaskStatus` equal to `COMPLETED`, and in reported failure exactly on
`FAILED`; a caught HTTP-status failure (which yields `None`), a falsy
response, and any other or missing status value continue the loop, which
runs for as long as every poll is of that kind; a transport-level
failure of the poll call, however, raises an uncaught exception that
aborts the loop instead of continuing it. -/
theorem polling_loop_lifecycle :
    (∀ trace : List HttpOutcome, ∀ i : Nat,
      (pollEvents trace).get? i = some .pollCall →
        1 ≤ i ∧ (pollEvents trace).get? (i - 1) = some (.sleep POLL_INTERVAL)) ∧
    POLL_INTERVAL = 10 ∧
    (∀ task_id : String, '#' ∉ task_id.data →
      (urlparse (get_task_url task_id)).query = "TaskId=" ++ task_id) ∧
    (∀ o j, loopStep o = .completed j ↔
      o = .success j ∧ truthy j = true ∧ taskStatusOf j = .ok (.str "COMPLETED")) ∧
    (∀ o j, loopStep o = .failed j ↔
      o = .success j ∧ truthy j = true ∧ taskStatusOf j = .ok (.str "FAILED")) ∧
    (∀ o, loopStep o = .cont ↔
      (∃ c b, o = .httpError c b) ∨
      (∃ j, o = .success j ∧ (truthy j = false ∨
        (∃ ts, taskStatusOf j = .ok ts ∧
          jeqStr ts "COMPLETED" = false ∧ jeqStr ts "FAILED" = false)))) ∧
    (∀ m, loopStep (.transportError m) = .exc (.urlError m)) ∧
    (∀ trace, pollLoop trace = .stillPolling ↔ ∀ o ∈ trace, loopStep o = .cont) ∧
    (∀ o rest, pollLoop (o :: rest) =
      match loopStep o with
      | .cont => pollLoop rest
      | .completed j => .completed j
      | .failed j => .failed j
      | .exc e => .uncaught e) :=
  ⟨pollEvents_sleep_before_poll, rfl,
   fun task_id hm => by rw [urlparse_get_task_url task_id hm],
   loopStep_completed_iff, loopStep_failed_iff, loopStep_cont_iff,
   loopStep_transportError, pollLoop_stillPolling_iff, pollLoop_cons⟩

theorem polling_loop_lifecycle_witness :
    (1 ≤ 1 ∧ (pollEvents [HttpOutcome.httpError 500 "b"]).get? (1 - 1) =
      some (Event.sleep POLL_INTERVAL)) ∧
    POLL_INTERVAL = 10 ∧
    (urlparse (get_task_url "abc123")).query = "TaskId=" ++ "abc123" ∧
    loopStep (.success (.obj [("Data", .obj [("TaskStatus", .str "COMPLETED")])])) =
      .completed (.obj [("Data", .obj [("TaskStatus", .str "COMPLETED")])]) ∧
    loopStep (.success (.obj [("Data", .obj [("TaskStatus", .str "FAILED")])])) =
      .failed (.obj [("Data", .obj [("TaskStatus", .str "FAILED")])]) ∧
    loopStep (.httpError 403 "denied") = .cont ∧
    loopStep (.transportError "timed out") = .exc (.urlError "timed out") ∧
    pollLoop [.httpError 500 "b",
      .success (.obj [("Data", .obj [("TaskStatus", .str "RUNNING")])])] = .stillPolling ∧
    pollLoop [.success (.obj [("Data", .obj [("TaskStatus", .str "COMPLETED")])])] =
      .completed (.obj [("Data", .obj [("TaskStatus", .str "COMPLETED")])]) := by
  obtain ⟨p1, p2, p3, p4, p5, p6, p7, p8, p9⟩ := polling_loop_lifecycle
  refine ⟨p1 [HttpOutcome.httpError 500 "b"] 1 rfl, p2, p3 "abc123" (by decide),
    (p4 _ _).mpr ⟨rfl, rfl, rfl⟩, (p5 _ _).mpr ⟨rfl, rfl, rfl⟩,
    (p6 _).mpr (Or.inl ⟨403, "denied", rfl⟩), p7 "timed out",
    (p8 _).mpr ?_, ?_⟩
  · intro o ho
    simp only [List.mem_cons, List.not_mem_nil, or_false] at ho
    rcases ho with rfl | rfl
    · rfl
    · rfl
  · rw [p9]
    rfl

/-- C4: a successful submission returns the parsed JSON response, whose
job identifier under `Data.TaskId` is what `__main__` extracts and then
polls with; a non-2xx response surfaces the status code line and the raw
body, returns `None` without retrying, and the run never enters the
polling loop. -/
theorem create_task_result_handling :
    (∀ j : Json, create_task (.success j) = .ok ([], some j)) ∧
    (∀ code body, create_task (.httpError code body) =
      .ok (["HTTP Error: " ++ toString code, body], none)) ∧
    (∀ argv trace fields ds t, ¬ argv.length < 2 →
      jget fields "Data" = some (.obj ds) → jget ds "TaskId" = some t →
      main_run ⟨argv, .success (.obj fields), trace⟩ = .polled t (pollLoop trace)) ∧
    (∀ argv trace code body, ¬ argv.length < 2 →
      main_run ⟨argv, .httpError code body, trace⟩ = .noResult ∧
      ∀ t r, main_run ⟨argv, .httpError code body, trace⟩ ≠ .polled t r) :=
  ⟨fun _ => rfl, fun _ _ => rfl,
   fun argv trace fields ds t hlen hD hT =>
     main_run_success_taskid argv trace fields ds t hlen hD hT,
   fun argv trace code body hlen =>
     ⟨main_run_httpError argv trace code body hlen,
      fun t r heq => by
        rw [main_run_httpError argv trace code body hlen] at heq
        exact MainRes.noConfusion heq⟩⟩

theorem create_task_result_handling_witness :
    create_task (.success (.obj [("Data", .obj [("TaskId", .str "T1")])])) =
      .ok ([], some (.obj [("Data", .obj [("TaskId", .str "T1")])])) ∧
    create_task (.httpError 403 "denied") = .ok (["HTTP Error: " ++ toString 403, "denied"], none) ∧
    main_run ⟨["tingwu_transcribe.py", "https://example.com/a.mp3"],
      .success (.obj [("Data", .obj [("TaskId", .str "T1")])]), []⟩ =
      .polled (.str "T1") (pollLoop []) ∧
    main_run ⟨["tingwu_transcribe.py", "https://example.com/a.mp3"],
      .httpError 403 "denied", [.success (.obj [("Data", .obj [("TaskId", .str "T1")])])]⟩ =
      .noResult ∧
    main_run ⟨["tingwu_transcribe.py", "https://example.com/a.mp3"],
      .httpError 403 "denied", [.success (.obj [("Data", .obj [("TaskId", .str "T1")])])]⟩ ≠
      .polled (.str "T1") .stillPolling := by
  obtain ⟨q1, q2, q3, q4⟩ := create_task_result_handling
  refine ⟨q1 _, q2 403 "denied",
    q3 _ _ [("Data", .obj [("TaskId", .str "T1")])] [("TaskId", .str "T1")] (.str "T1")
      (by decide) rfl rfl,
    (q4 _ _ 403 "denied" (by decide)).1,
    (q4 _ _ 403 "denied" (by decide)).2 (.str "T1") .stillPolling⟩

/-- C5 counterexample: a transport-level failure (anything that is not
an `urllib.error.HTTPError`, such as a timeout) is not caught by either
`except` clause and propagates as an uncaught exception. -/
theorem transport_failure_uncaught_cex :
    main_run ⟨["tingwu_transcribe.py", "https://example.com/a.mp3"],
      .success (.obj [("Data", .obj [("TaskId", .str "T1")])]),
      [.transportError "timed out"]⟩ =
      .polled (.str "T1") (.uncaught (.urlError "timed out")) ∧
    main_run ⟨["tingwu_transcribe.py", "https://example.com/a.mp3"],
      .transportError "connection refused", []⟩ =
      .uncaught (.urlError "connection refused") := ⟨rfl, rfl⟩

/-- C5 (amended): argument-count misuse prints usage and exits with the
nonzero status 1, and HTTP-status failures of either call are caught;
but transport-level failures (any `urlopen` failure that is not an
`HTTPError`) are NOT caught: they propagate from the submit call or from
a poll call as uncaught exceptions; malformed truthy non-dict responses
can raise as well. Under outcomes of the handled shapes, no exception
escapes. -/
theorem abnormal_exit_surface :
    (∀ inp : MainInput, inp.argv.length < 2 →
      main_run inp = .usageExit 1 ∧ (1 : Nat) ≠ 0) ∧
    (∀ argv trace code body, ¬ argv.length < 2 →
      main_run ⟨argv, .httpError code body, trace⟩ = .noResult) ∧
    (∀ c b, loopStep (.httpError c b) = .cont) ∧
    (∀ argv trace m, ¬ argv.length < 2 →
      main_run ⟨argv, .transportError m, trace⟩ = .uncaught (.urlError m)) ∧
    (∀ m, loopStep (.transportError m) = .exc (.urlError m)) ∧
    (∀ inp : MainInput, createSafe inp.createOutcome = true →
      (∀ o ∈ inp.pollOutcomes, pollSafe o = true) →
      (∀ e, main_run inp ≠ .uncaught e) ∧
      (∀ t e, main_run inp ≠ .polled t (.uncaught e))) :=
  ⟨fun inp h => ⟨main_run_usage inp h, by decide⟩,
   fun argv trace code body hlen => main_run_httpError argv trace code body hlen,
   fun _ _ => rfl,
   fun argv trace m hlen => main_run_transportError argv trace m hlen,
   loopStep_transportError,
   fun inp hc hp => main_run_no_uncaught inp hc hp⟩

theorem abnormal_exit_surface_witness :
    (main_run ⟨["tingwu_transcribe.py"], .httpError 500 "b", []⟩ = .usageExit 1 ∧
      (1 : Nat) ≠ 0) ∧
    main_run ⟨["tingwu_transcribe.py", "https://example.com/a.mp3"],
      .httpError 403 "denied", []⟩ = .noResult ∧
    loopStep (.httpError 500 "b") = .cont ∧
    main_run ⟨["tingwu_transcribe.py", "https://example.com/a.mp3"],
      .transportError "timed out", []⟩ = .uncaught (.urlError "timed out") ∧
    loopStep (.transportError "timed out") = .exc (.urlError "timed out") ∧
    main_run ⟨["tingwu_transcribe.py", "https://example.com/a.mp3"],
      .success (.obj [("Data", .obj [("TaskId", .str "T1")])]),
      [.httpError 500 "b"]⟩ ≠ .uncaught (.urlError "x") ∧
    main_run ⟨["tingwu_transcribe.py", "https://example.com/a.mp3"],
      .success (.obj [("Data", .obj [("TaskId", .str "T1")])]),
      [.httpError 500 "b"]⟩ ≠ .polled (.str "T1") (.uncaught (.urlError "x")) := by
  obtain ⟨r1, r2, r3, r4, r5, r6⟩ := abnormal_exit_surface
  have hsafe := r6 ⟨["tingwu_transcribe.py", "https://example.com/a.mp3"],
      .success (.obj [("Data", .obj [("TaskId", .str "T1")])]), [.httpError 500 "b"]⟩
    rfl (by
      intro o ho
      simp only [List.mem_singleton] at ho
      subst ho
      rfl)
  exact ⟨r1 _ (by decide), r2 _ [] 403 "denied" (by decide), r3 500 "b",
    r4 _ [] "timed out" (by decide), r5 "timed out",
    hsafe.1 (.urlError "x"), hsafe.2 (.str "T1") (.urlError "x")⟩

/-! ## The credential lines of the source (lines 15-17) -/

/-- The text on the right-hand side of line 15 of the source file
(the lines for the other two credentials differ only in the variable
name). -/
def credentialAssignmentRhs : String := "\"os.environ.get(\"ALIYUN_ACCESS_KEY_ID\", \"\")\""

/-- Consume the body of a double-quoted string up to the closing quote
(the modelled text holds no escape sequences). -/
def pyStringBody : List Char → Option (List Char × List Char)
  | [] => none
  | '"' :: rest => some ([], rest)
  | c :: rest =>
    match pyStringBody rest with
    | none => none
    | some (a, b) => some (c :: a, b)

/-- Consume one double-quoted Python string literal, returning its body
and the remaining characters. -/
def pyStringToken : List Char → Option (List Char × List Char)
  | '"' :: rest => pyStringBody rest
  | _ => none

/-- C2: the credential lines do not read the environment. The right-hand
side of line 15 is not a single string literal: the first string literal
ends right after `os.environ.get(` and is directly followed by the
identifier character `A` of `ALIYUN_ACCESS_KEY_ID`, which Python rejects
(a string literal juxtaposed with a name is a SyntaxError), so the
module never loads and no credential is read from the environment. -/
theorem credential_line_not_env_lookup :
    pyStringToken credentialAssignmentRhs.data =
      some ("os.environ.get(".data, "ALIYUN_ACCESS_KEY_ID\", \"\")\"".data) ∧
    "ALIYUN_ACCESS_KEY_ID\", \"\")\"".data ≠ [] ∧
    ("ALIYUN_ACCESS_KEY_ID\", \"\")\"".data.headD ' ').isAlpha = true :=
  ⟨by decide, by decide, by decide⟩

end Tingwu
